import Mathlib

/-!
Verification of the DO-construct semantic checking pass of the f18 front end
(lib/semantics/check-do.cpp).  The pass receives a resolved syntax tree and
emits diagnostics for violations of the Fortran constraints on counted DO
loops and DO CONCURRENT constructs.

The embedding below mirrors the checked source:
* `Symbol` carries the externally-resolved per-symbol facts the pass queries
  (IsPolymorphicAllocatable of the association root, ultimate components,
  attributes, purity, owning scope).  Symbols compare by identity (`sid`).
  Association chains are flattened: a symbol with `hasRoot = true` stands for
  its own association root.
* `HExpr` carries the externally-computed facts about one parsed expression
  (GetExpr success, CollectSymbols result, IsZero, type category).
* `Stmt` is the executable-construct tree walked by the per-construct body
  enforcers; statement lists are chained with `Stmt.seq`.
* Diagnostics are `Message` records; `fatal = true` models messages built
  from an `_err_en_US` text (severity Error), `fatal = false` an `_en_US`
  text (severity Warning).
-/

namespace F18

/-- One secondary attachment of a diagnostic (Message::Attach). -/
structure Attachment where
  aloc : Nat
  atext : String
deriving DecidableEq, Repr

/-- One diagnostic record appended to the message sink. -/
structure Message where
  mloc : Nat
  mtext : String
  fatal : Bool
  attachments : List Attachment
deriving DecidableEq, Repr

/-- One ultimate component of a derived type (UltimateComponentIterator item). -/
structure UltComponent where
  isCoarray : Bool
  polyAlloc : Bool
deriving DecidableEq, Repr

/-- A resolved symbol with the attributes the pass queries.  Identity is
`sid`; `declLoc` is the declaration location used by SayWithDecl. -/
structure Symbol where
  sid : Nat
  sname : String
  declLoc : Nat
  hasRoot : Bool
  rootPolyAlloc : Bool
  rootUltimates : List UltComponent
  hasType : Bool
  typePoly : Bool
  typeInteger : Bool
  typeReal : Bool
  allocatable : Bool
  saveAttr : Bool
  isProc : Bool
  isPureProc : Bool
  ieeeModule : Bool
  isVariable : Bool
  ownerScope : Nat
deriving DecidableEq, Repr

/-- A parser::Name after name resolution (`symbol` may be unresolved). -/
structure Name where
  nsource : Nat
  nstr : String
  symbol : Option Symbol
deriving DecidableEq, Repr

/-- The facts about one parsed scalar expression that the pass obtains from
the evaluate subsystem: whether GetExpr produced a typed expression, the
association roots of CollectSymbols, the IsZero query, and the type
category tests used by CheckDoExpression. -/
structure HExpr where
  esource : Nat
  hasExpr : Bool
  esymbols : List Symbol
  eisZero : Bool
  typeInteger : Bool
  typeReal : Bool
deriving DecidableEq, Repr

/-- parser::ProcedureDesignator: either a direct name or a procedure
component reference. -/
inductive ProcDesignator where
  | named (symbol : Option Symbol) (srcName : String)
  | procComponent (symbol : Option Symbol)
deriving DecidableEq, Repr

/-- An I/O control specifier: only the ADVANCE CharExpr kind matters to the
body enforcer. -/
inductive IoSpec where
  | advanceSpec
  | otherSpec
deriving DecidableEq, Repr

/-- parser::LocalitySpec alternatives.  The names of a LOCAL spec carry the
symbol found for them in the scope enclosing the DO construct. -/
inductive LocalitySpec where
  | localSpec (names : List Name)
  | localInitSpec (names : List Name)
  | sharedSpec (names : List Name)
  | defaultNone
deriving DecidableEq, Repr

/-- parser::ConcurrentControl: index-name = lower : upper [: step]. -/
structure ConcurrentControl where
  cname : Name
  clower : HExpr
  cupper : HExpr
  cstep : Option HExpr
deriving DecidableEq, Repr

/-- parser::ConcurrentHeader: the control list and the optional mask. -/
structure ConcurrentHeader where
  controls : List ConcurrentControl
  mask : Option HExpr
deriving DecidableEq, Repr

/-- parser::LoopControl::Bounds of a counted DO loop. -/
structure BoundsCtl where
  bname : Name
  lower : HExpr
  upper : HExpr
  step : Option HExpr
deriving DecidableEq, Repr

/-- parser::LoopControl alternatives. -/
inductive LoopControl where
  | bounds (b : BoundsCtl)
  | concurrentCtl (header : ConcurrentHeader) (locality : List LocalitySpec)
  | whileCtl
deriving DecidableEq, Repr

/-- The non-body data of one DO construct: header source position, the id of
the scope found at that position (context.FindScope), the ids of the scopes
that strictly contain it, the optional construct name, and the loop
control. -/
structure DoInfo where
  doSource : Nat
  scopeId : Nat
  strictAncestors : List Nat
  constructName : Option String
  control : Option LoopControl
deriving DecidableEq, Repr

/-- The executable-construct tree of one program unit.  Statement sequences
are chained with `seq`; `skip` is the empty block.  `blockConstruct` carries
the symbols declared in the block scope, the END BLOCK source, and the ids
of the scopes strictly containing the block scope.  `otherStmt` carries the
parser::Name nodes occurring in a statement with no specific enforcement. -/
inductive Stmt where
  | skip
  | seq (a b : Stmt)
  | assignment (src : Nat) (lhs : Name) (lhsSrc : Nat) (rhsDes : List ProcDesignator)
  | deallocStmt (src : Nat) (objs : List Name)
  | returnStmt (src : Nat)
  | callStmt (src : Nat) (des : ProcDesignator)
  | exprStmt (src : Nat) (des : List ProcDesignator)
  | ioStmt (src : Nat) (specs : List IoSpec)
  | imageControl (src : Nat) (coarrayMsg : Option String)
  | blockConstruct (src : Nat) (blockSyms : List Symbol) (endSrc : Nat)
      (blockAncestors : List Nat) (body : Stmt)
  | criticalConstruct (src : Nat) (cname : Option String) (body : Stmt)
  | changeTeamConstruct (src : Nat) (cname : Option String) (body : Stmt)
  | doConstruct (src : Nat) (info : DoInfo) (body : Stmt)
  | cycleStmt (src : Nat) (target : Option String)
  | exitStmt (src : Nat) (target : Option String)
  | otherStmt (src : Nat) (refNames : List Name)
deriving DecidableEq, Repr

/-- The externally configured conformance flags queried by CheckDoControl. -/
structure Config where
  warnOnNonstandardUsage : Bool
  warnRealDoControls : Bool
deriving DecidableEq, Repr

/-- Concatenation map over a list (the shape of every loop in the pass that
may emit several diagnostics). -/
def cmap {α β : Type} (f : α → List β) : List α → List β
  | [] => []
  | x :: xs => f x ++ cmap f xs

/-- Membership in a SymbolSet: symbols compare by identity. -/
def memSym (s : Symbol) (set : List Symbol) : Bool :=
  set.any fun t => t.sid == s.sid

/-- Insertion into a SymbolSet (std::set insert, keyed by identity). -/
def insertSym (s : Symbol) (set : List Symbol) : List Symbol :=
  if memSym s set then set else set ++ [s]

/-! ### Message texts (the `_err_en_US` / `_en_US` literals of the source) -/

def enclosingDoText : String := "Enclosing DO CONCURRENT statement"
def blockExitDeallocText : String :=
  "Deallocation of a polymorphic entity caused by block exit not allowed in DO CONCURRENT"
def assignDeallocText : String :=
  "Deallocation of a polymorphic entity caused by assignment not allowed in DO CONCURRENT"
def deallocStmtText : String :=
  "Deallocation of a polymorphic entity not allowed in DO CONCURRENT"
def imageControlText : String :=
  "An image control statement is not allowed in DO CONCURRENT"
def returnText : String := "RETURN is not allowed in DO CONCURRENT"
def impureCallText : String :=
  "Call to an impure procedure is not allowed in DO CONCURRENT"
def ieeeHaltingText : String :=
  "IEEE_SET_HALTING_MODE is not allowed in DO CONCURRENT"
def impureComponentText : String :=
  "Call to an impure procedure component is not allowed in DO CONCURRENT"
def advanceText : String := "ADVANCE specifier is not allowed in DO CONCURRENT"
def maskImpureText : String :=
  "Concurrent-header mask expression cannot reference an impure procedure"
def indexCollisionText (n : String) : String :=
  "concurrent-control expression references index-name " ++ n
def maskLocalText (n : String) : String :=
  "concurrent-header mask-expr references variable " ++ n ++ " in LOCAL locality-spec"
def exprLocalText (n : String) : String :=
  "concurrent-header expression references variable " ++ n ++ " in LOCAL locality-spec"
def onlyOneDefaultNoneText : String := "Only one DEFAULT(NONE) may appear"
def defaultNoneLocalityText (n : String) : String :=
  "Variable " ++ n ++ " from an enclosing scope referenced in DO CONCURRENT with DEFAULT(NONE) must appear in a locality-spec"
def badDoControlText : String := "DO controls should be INTEGER"
def doVarIntegerText : String := "DO control must be an INTEGER variable"
def doStepZeroText : String := "DO step expression should not be zero"
def concZeroStepText : String := "DO CONCURRENT step expression should not be zero"
def constructLeftText : String := "The construct that was left"
def noMatchExitText : String := "No matching construct for EXIT statement"
def noMatchCycleText : String := "No matching DO construct for CYCLE statement"
def declarationText (n : String) : String := "Declaration of " ++ n

/-- Modelled from the spec: SemanticsContext::SayWithDecl is outside the
checked source; per the diagnostic record format of the spec it emits the
message at the given location with one attachment at the symbol's
declaration.  It receives no concurrent-loop header location. -/
def sayWithDecl (sym : Symbol) (loc : Nat) (text : String) (fatal : Bool) : Message :=
  ⟨loc, text, fatal, [⟨sym.declLoc, declarationText sym.sname⟩]⟩

/-- SayWithDo: say at the statement location and attach the enclosing DO
CONCURRENT statement location. -/
def sayWithDo (stmtLoc : Nat) (text : String) (doLoc : Nat) : Message :=
  ⟨stmtLoc, text, true, [⟨doLoc, enclosingDoText⟩]⟩

/-! ### Deallocation predicates (DoConcurrentBodyEnforce statics) -/

/-- Predicate for deallocations caused by block exit and direct DEALLOCATE. -/
def deallocateAll : UltComponent → Bool := fun _ => true

/-- Predicate for deallocations caused by intrinsic assignment (coarray
components are never deallocated by assignment). -/
def deallocateNonCoarray (component : UltComponent) : Bool := !component.isCoarray

/-- WillDeallocatePolymorphic for one ultimate component. -/
def willDeallocatePolymorphic (willDeallocate : UltComponent → Bool)
    (component : UltComponent) : Bool :=
  willDeallocate component && component.polyAlloc

/-- MightDeallocatePolymorphic: the association root itself is a polymorphic
allocatable (no coarray exception), or some ultimate component of its
derived type would deallocate a polymorphic entity.  A symbol whose
association chain has no root never deallocates. -/
def mightDeallocatePolymorphic (entity : Symbol)
    (willDeallocate : UltComponent → Bool) : Bool :=
  entity.hasRoot &&
    (entity.rootPolyAlloc ||
      entity.rootUltimates.any (willDeallocatePolymorphic willDeallocate))

/-! ### DoConcurrentBodyEnforce (11.1.7.5 body constraints) -/

/-- Diagnostics of DoConcurrentBodyEnforce::Post(ProcedureDesignator):
an impure direct call (C1139), the IEEE_SET_HALTING_MODE special case
(C1141), or an impure procedure-component call. -/
def procDesignatorMessages (doLoc stmtSrc : Nat) : ProcDesignator → List Message
  | .named symbol srcName =>
    (match symbol with
     | some s =>
       (if !s.isPureProc then [sayWithDo stmtSrc impureCallText doLoc] else []) ++
       (if s.ieeeModule && srcName == "ieee_set_halting_mode" then
          [sayWithDo stmtSrc ieeeHaltingText doLoc]
        else [])
     | none => [])
  | .procComponent symbol =>
    match symbol with
    | some s => if !s.isPureProc then [sayWithDo stmtSrc impureComponentText doLoc] else []
    | none => []

/-- Block-exit deallocation check for one symbol declared in an exiting
block (Post(BlockConstruct) loop body). -/
def blockExitMessages (endSrc : Nat) (entity : Symbol) : List Message :=
  if entity.allocatable && !entity.saveAttr &&
      mightDeallocatePolymorphic entity deallocateAll then
    [sayWithDecl entity endSrc blockExitDeallocText true]
  else []

/-- DEALLOCATE statement check for one allocate-object name
(Post(DeallocateStmt) loop body): polymorphic static type covers the
POINTER case, otherwise MightDeallocatePolymorphic with DeallocateAll. -/
def deallocObjectMessages (stmtSrc : Nat) (nm : Name) : List Message :=
  match nm.symbol with
  | some entity =>
    if (entity.hasType && entity.typePoly) ||
        mightDeallocatePolymorphic entity deallocateAll then
      [sayWithDecl entity stmtSrc deallocStmtText true]
    else []
  | none => []

/-- The walk of DoConcurrentBodyEnforce over a DO CONCURRENT body:
post-order hooks per node kind, recursing into every nested construct
(the generic Pre returns true for every node, including nested DO
constructs).  `doLoc` is the enclosing DO CONCURRENT statement source;
`doScope` the id of the scope found at that position. -/
def doConcurrentBodyEnforce (doLoc doScope : Nat) : Stmt → List Message
  | .skip => []
  | .seq a b => doConcurrentBodyEnforce doLoc doScope a ++ doConcurrentBodyEnforce doLoc doScope b
  | .assignment src lhs lhsSrc rhsDes =>
    cmap (procDesignatorMessages doLoc src) rhsDes ++
    (match lhs.symbol with
     | some entity =>
       if mightDeallocatePolymorphic entity deallocateNonCoarray then
         [sayWithDecl entity lhsSrc assignDeallocText true]
       else []
     | none => [])
  | .deallocStmt src objs => cmap (deallocObjectMessages src) objs
  | .returnStmt src => [⟨src, returnText, true, [⟨doLoc, enclosingDoText⟩]⟩]
  | .callStmt src des => procDesignatorMessages doLoc src des
  | .exprStmt src des => cmap (procDesignatorMessages doLoc src) des
  | .ioStmt src specs =>
    cmap (fun sp => match sp with
      | IoSpec.advanceSpec => [sayWithDo src advanceText doLoc]
      | IoSpec.otherSpec => []) specs
  | .imageControl src coarrayMsg =>
    [⟨src, imageControlText, true,
      (match coarrayMsg with
       | some t => [⟨src, t⟩]
       | none => []) ++ [⟨doLoc, enclosingDoText⟩]⟩]
  | .blockConstruct _ blockSyms endSrc blockAncestors body =>
    doConcurrentBodyEnforce doLoc doScope body ++
    (if blockAncestors.contains doScope then cmap (blockExitMessages endSrc) blockSyms
     else [])
  | .criticalConstruct src _ body =>
    doConcurrentBodyEnforce doLoc doScope body ++
    [⟨src, imageControlText, true, [⟨doLoc, enclosingDoText⟩]⟩]
  | .changeTeamConstruct src _ body =>
    doConcurrentBodyEnforce doLoc doScope body ++
    [⟨src, imageControlText, true, [⟨doLoc, enclosingDoText⟩]⟩]
  | .doConstruct _ _ body => doConcurrentBodyEnforce doLoc doScope body
  | .cycleStmt _ _ => []
  | .exitStmt _ _ => []
  | .otherStmt _ _ => []

/-! ### DoConcurrentVariableEnforce (C1130, DEFAULT(NONE)) -/

/-- The parser::Name nodes occurring in a statement tree (visited by the
Post(Name) hook of DoConcurrentVariableEnforce). -/
def stmtNames : Stmt → List Name
  | .skip => []
  | .seq a b => stmtNames a ++ stmtNames b
  | .assignment _ lhs _ _ => [lhs]
  | .deallocStmt _ objs => objs
  | .returnStmt _ => []
  | .callStmt _ _ => []
  | .exprStmt _ _ => []
  | .ioStmt _ _ => []
  | .imageControl _ _ => []
  | .blockConstruct _ _ _ _ body => stmtNames body
  | .criticalConstruct _ _ body => stmtNames body
  | .changeTeamConstruct _ _ body => stmtNames body
  | .doConstruct _ _ body => stmtNames body
  | .cycleStmt _ _ => []
  | .exitStmt _ _ => []
  | .otherStmt _ refNames => refNames

/-- DoConcurrentVariableEnforce: every name resolving to a variable owned by
a scope strictly containing the loop scope must appear in a locality-spec. -/
def doConcurrentVariableEnforce (d : DoInfo) (body : Stmt) : List Message :=
  cmap (fun nm =>
    match nm.symbol with
    | some sym =>
      if sym.isVariable && d.strictAncestors.contains sym.ownerScope then
        [sayWithDecl sym nm.nsource (defaultNoneLocalityText sym.sname) true]
      else []
    | none => []) (stmtNames body)

/-! ### Header and locality checks (DoContext) -/

/-- GatherSymbolsFromExpression: the association roots of the symbols
collected from the expression (empty when GetExpr failed). -/
def gatherSymbolsFromExpression (e : HExpr) : List Symbol :=
  if e.hasExpr then
    e.esymbols.foldl (fun acc s => if s.hasRoot then insertSym s acc else acc) []
  else []

/-- Helper find of the first predicate satisfier of a list. -/
def CheckNoCollisionsFind (refs uses : List Symbol) : Option Symbol :=
  refs.find? fun r => memSym r uses

/-- CheckNoCollisions: report (once) the first referenced symbol that is in
the `uses` set. -/
def checkNoCollisions (refs uses : List Symbol) (mkText : String → String)
    (refPos : Nat) : List Message :=
  match CheckNoCollisionsFind refs uses with
  | some r => [sayWithDecl r refPos (mkText r.sname) true]
  | none => []

/-- HasNoReferences: a concurrent-control expression must not reference an
index-name (C1123). -/
def hasNoReferences (indexNames : List Symbol) (e : HExpr) : List Message :=
  checkNoCollisions (gatherSymbolsFromExpression e) indexNames
    indexCollisionText e.esource

/-- The set of resolved index-name symbols of a concurrent header. -/
def headerIndexNames (h : ConcurrentHeader) : List Symbol :=
  h.controls.foldl (fun acc c =>
    match c.cname.symbol with
    | some s => insertSym s acc
    | none => acc) []

/-- CheckConcurrentHeader (C1123 and the concurrent zero-step error): runs
only when at least one index-name resolved to a symbol; for each control it
checks the lower, upper and optional step expression against the index
names, and rejects a step that is statically zero. -/
def checkConcurrentHeader (h : ConcurrentHeader) : List Message :=
  if (headerIndexNames h).isEmpty then []
  else
    cmap (fun c =>
      hasNoReferences (headerIndexNames h) c.clower ++
      hasNoReferences (headerIndexNames h) c.cupper ++
      (match c.cstep with
       | some e =>
         hasNoReferences (headerIndexNames h) e ++
         (if e.eisZero then [⟨e.esource, concZeroStepText, true, []⟩] else [])
       | none => [])) h.controls

/-- CheckMaskIsPure (C1121): the first procedure symbol referenced by the
mask that is not pure is reported (the loop returns after one report). -/
def checkMaskIsPure (pos : Nat) (mask : HExpr) : List Message :=
  match (gatherSymbolsFromExpression mask).find? (fun r => r.isProc && !r.isPureProc) with
  | some ref => [sayWithDecl ref pos maskImpureText true]
  | none => []

/-- GatherLocals: root symbols of the names of LOCAL locality-specs, looked
up in the scope enclosing the DO construct. -/
def gatherLocals (specs : List LocalitySpec) : List Symbol :=
  specs.foldl (fun acc ls =>
    match ls with
    | LocalitySpec.localSpec names =>
      names.foldl (fun a nm =>
        match nm.symbol with
        | some s => if s.hasRoot then insertSym s a else a
        | none => a) acc
    | _ => acc) []

/-- CheckExprDoesNotReferenceLocal (C1129). -/
def checkExprDoesNotReferenceLocal (e : HExpr) (localVars : List Symbol) : List Message :=
  checkNoCollisions (gatherSymbolsFromExpression e) localVars exprLocalText e.esource

/-- CheckMaskDoesNotReferenceLocal (C1129). -/
def checkMaskDoesNotReferenceLocal (mask : HExpr) (localVars : List Symbol) : List Message :=
  checkNoCollisions (gatherSymbolsFromExpression mask) localVars maskLocalText mask.esource

/-- True when the locality-spec is DEFAULT(NONE). -/
def isDefaultNone : LocalitySpec → Bool
  | LocalitySpec.defaultNone => true
  | _ => false

/-- The scan of CheckDefaultNoneImpliesExplicitLocality over the
locality-specs: the flag records whether a DEFAULT(NONE) was already seen;
on the second one a single (non-fatal) message is emitted and the scan
breaks. -/
def dupDefaultNoneScan (pos : Nat) : List LocalitySpec → Bool → List Message
  | [], _ => []
  | ls :: rest, flag =>
    if isDefaultNone ls then
      if flag then [⟨pos, onlyOneDefaultNoneText, false, []⟩]
      else dupDefaultNoneScan pos rest true
    else dupDefaultNoneScan pos rest flag

/-- Whether any DEFAULT(NONE) spec is present. -/
def hasDefaultNoneSpec (specs : List LocalitySpec) : Bool :=
  specs.any isDefaultNone

/-- CheckDefaultNoneImpliesExplicitLocality (C1127 and C1130): diagnose a
duplicate DEFAULT(NONE) and, when DEFAULT(NONE) is present, run the
variable-enforce walk over the body. -/
def checkDefaultNoneImpliesExplicitLocality (d : DoInfo)
    (specs : List LocalitySpec) (body : Stmt) : List Message :=
  dupDefaultNoneScan d.doSource specs false ++
  (if hasDefaultNoneSpec specs then doConcurrentVariableEnforce d body else [])

/-- CheckLocalitySpecs: only when at least one locality-spec is present,
check the header bound/step/mask expressions against the LOCAL root
symbols, then the DEFAULT(NONE) rules. -/
def checkLocalitySpecs (d : DoInfo) (h : ConcurrentHeader)
    (specs : List LocalitySpec) (body : Stmt) : List Message :=
  if specs.isEmpty then []
  else
    cmap (fun c =>
      checkExprDoesNotReferenceLocal c.clower (gatherLocals specs) ++
      checkExprDoesNotReferenceLocal c.cupper (gatherLocals specs) ++
      (match c.cstep with
       | some e => checkExprDoesNotReferenceLocal e (gatherLocals specs)
       | none => [])) h.controls ++
    (match h.mask with
     | some m => checkMaskDoesNotReferenceLocal m (gatherLocals specs)
     | none => []) ++
    checkDefaultNoneImpliesExplicitLocality d specs body

/-- CheckConcurrentLoopControl (constraints C1121 .. C1130): mask purity,
then the concurrent header, then the locality-specs. -/
def checkConcurrentLoopControl (d : DoInfo) (h : ConcurrentHeader)
    (specs : List LocalitySpec) (body : Stmt) : List Message :=
  (match h.mask with
   | some m => checkMaskIsPure d.doSource m
   | none => []) ++
  checkConcurrentHeader h ++
  checkLocalitySpecs d h specs body

/-! ### Counted-loop checks (C1120 plus the zero-step warning) -/

/-- SayBadDoControl: the fatal DO-controls-should-be-INTEGER message. -/
def sayBadDoControl (loc : Nat) : Message := ⟨loc, badDoControlText, true, []⟩

/-- CheckDoControl: a REAL control is silent, a warning, or an error
depending on the conformance flags; any other non-integer type is an
error. -/
def checkDoControl (cfg : Config) (loc : Nat) (isReal : Bool) : List Message :=
  let warn := cfg.warnOnNonstandardUsage || cfg.warnRealDoControls
  if isReal && !warn then []
  else if isReal && warn then [⟨loc, badDoControlText, false, []⟩]
  else [sayBadDoControl loc]

/-- CheckDoVariable: the DO variable must resolve to a variable of integer
type (nothing is said when the name did not resolve). -/
def checkDoVariable (cfg : Config) (nm : Name) : List Message :=
  match nm.symbol with
  | none => []
  | some s =>
    if !s.isVariable then [⟨nm.nsource, doVarIntegerText, true, []⟩]
    else if !s.hasType then [sayBadDoControl nm.nsource]
    else if s.typeInteger then []
    else checkDoControl cfg nm.nsource s.typeReal

/-- CheckDoExpression: silent when GetExpr failed or the type is integer. -/
def checkDoExpression (cfg : Config) (e : HExpr) : List Message :=
  if e.hasExpr then
    if e.typeInteger then [] else checkDoControl cfg e.esource e.typeReal
  else []

/-- CheckDoNormal (C1120 extended): variable and bound checks, plus the
non-fatal zero-step warning on a step statically equal to zero. -/
def checkDoNormal (cfg : Config) (b : BoundsCtl) : List Message :=
  checkDoVariable cfg b.bname ++
  checkDoExpression cfg b.lower ++
  checkDoExpression cfg b.upper ++
  (match b.step with
   | none => []
   | some st =>
     checkDoExpression cfg st ++
     (if st.eisZero then [⟨st.esource, doStepZeroText, false, []⟩] else []))

/-- DoContext::Check: DO CONCURRENT and counted loops are checked; other
loop forms (WHILE, infinite) are not yet handled. -/
def checkDo (cfg : Config) (info : DoInfo) (body : Stmt) : List Message :=
  match info.control with
  | some (LoopControl.concurrentCtl h specs) =>
    doConcurrentBodyEnforce info.doSource info.scopeId body ++
    checkConcurrentLoopControl info h specs body
  | some (LoopControl.bounds b) => checkDoNormal cfg b
  | _ => []

/-! ### ConstructStack and the jump-nesting checker -/

/-- The jump statement kinds checked by CheckNesting. -/
inductive StmtType where
  | cycle
  | exit
deriving DecidableEq, Repr

/-- EnumToString of a StmtType. -/
def stmtTypeText : StmtType → String
  | StmtType.cycle => "CYCLE"
  | StmtType.exit => "EXIT"

/-- The kind of one open construct on the ConstructStack. -/
inductive CKind where
  | doNormal
  | doConcurrent
  | doOther
  | critical
  | changeTeam
  | otherConstruct
deriving DecidableEq, Repr

/-- One ConstructNode: header position, optional construct name, kind. -/
structure ConstructNode where
  pos : Nat
  cname : Option String
  ckind : CKind
deriving DecidableEq, Repr

/-- MaybeGetDoConstruct succeeds: the node wraps a DoConstruct. -/
def nodeIsDo (c : ConstructNode) : Bool :=
  match c.ckind with
  | CKind.doNormal => true
  | CKind.doConcurrent => true
  | CKind.doOther => true
  | _ => false

/-- ConstructIsDoConcurrent. -/
def nodeIsDoConcurrent (c : ConstructNode) : Bool :=
  c.ckind == CKind.doConcurrent

/-- SayBadLeave: the jump must not leave the named construct kind; the
message attaches the position of the construct that was left. -/
def sayBadLeave (stmtLoc : Nat) (t : StmtType) (kindName : String)
    (constructPos : Nat) : Message :=
  ⟨stmtLoc, stmtTypeText t ++ " must not leave a " ++ kindName ++ " statement",
    true, [⟨constructPos, constructLeftText⟩]⟩

/-- CheckForBadLeave: crossing a DO CONCURRENT, CRITICAL or CHANGE TEAM
construct is illegal (C1135, C1167, C1168). -/
def checkForBadLeave (stmtLoc : Nat) (t : StmtType) (c : ConstructNode) : List Message :=
  match c.ckind with
  | CKind.doConcurrent => [sayBadLeave stmtLoc t "DO CONCURRENT" c.pos]
  | CKind.critical => [sayBadLeave stmtLoc t "CRITICAL" c.pos]
  | CKind.changeTeam => [sayBadLeave stmtLoc t "CHANGE TEAM" c.pos]
  | _ => []

/-- CheckDoConcurrentExit (C1167): even a direct match must not EXIT a DO
CONCURRENT. -/
def checkDoConcurrentExit (stmtLoc : Nat) (t : StmtType) (c : ConstructNode) : List Message :=
  if t == StmtType.exit && nodeIsDoConcurrent c then
    [sayBadLeave stmtLoc StmtType.exit "DO CONCURRENT" c.pos]
  else []

/-- StmtMatchesConstruct: an unlabeled jump matches any DO construct; a
labeled jump matches a construct of the same name, and for CYCLE only DO
constructs qualify. -/
def stmtMatchesConstruct (stmtName : Option String) (t : StmtType)
    (c : ConstructNode) : Bool :=
  match stmtName with
  | none => nodeIsDo c
  | some n =>
    match c.cname with
    | some cn => if cn == n then (t == StmtType.exit || nodeIsDo c) else false
    | none => false

/-- The standalone no-matching-construct error of CheckNesting. -/
def noMatchingMsg (stmtLoc : Nat) (t : StmtType) : Message :=
  match t with
  | StmtType.exit => ⟨stmtLoc, noMatchExitText, true, []⟩
  | StmtType.cycle => ⟨stmtLoc, noMatchCycleText, true, []⟩

/-- The innermost-to-outermost scan of CheckNesting: the argument list is
already reversed (innermost construct first). -/
def checkNestingScan (stmtLoc : Nat) (t : StmtType) (stmtName : Option String) :
    List ConstructNode → List Message
  | [] => [noMatchingMsg stmtLoc t]
  | c :: rest =>
    if stmtMatchesConstruct stmtName t c then checkDoConcurrentExit stmtLoc t c
    else checkForBadLeave stmtLoc t c ++ checkNestingScan stmtLoc t stmtName rest

/-- DoChecker::CheckNesting over the ConstructStack (most recently entered
construct last). -/
def checkNesting (stmtLoc : Nat) (t : StmtType) (stmtName : Option String)
    (stack : List ConstructNode) : List Message :=
  checkNestingScan stmtLoc t stmtName stack.reverse

/-! ### The tree-walk driver -/

/-- The traversal state shared by the checkers: the set of active DO
variable symbols (by identity) and the ConstructStack.  Modelled from the
spec: the stack push/pop on construct enter/leave and the
Activate/DeactivateDoVariable operations live in the surrounding semantics
context, outside the checked source. -/
structure CoreState where
  activeVars : List Nat
  stack : List ConstructNode
deriving DecidableEq, Repr

/-- Modelled from the spec: ActivateDoVariable marks a DO variable live. -/
def activateVar (sid : Nat) (vars : List Nat) : List Nat :=
  if vars.contains sid then vars else vars ++ [sid]

/-- Modelled from the spec: DeactivateDoVariable unmarks a DO variable. -/
def deactivateVar (sid : Nat) (vars : List Nat) : List Nat :=
  vars.filter fun x => x != sid

/-- The symbols activated by DefineDoVariables: the control variable of a
counted loop, every resolved index-name of a concurrent loop. -/
def doVarSids (info : DoInfo) : List Nat :=
  match info.control with
  | some (LoopControl.bounds b) =>
    (match b.bname.symbol with
     | some s => [s.sid]
     | none => [])
  | some (LoopControl.concurrentCtl h _) =>
    h.controls.foldr (fun c acc =>
      (match c.cname.symbol with
       | some s => [s.sid]
       | none => []) ++ acc) []
  | _ => []

/-- DefineDoVariables on entering a DO construct. -/
def defineDoVariables (info : DoInfo) (vars : List Nat) : List Nat :=
  (doVarSids info).foldl (fun a v => activateVar v a) vars

/-- ResetDoVariables on leaving a DO construct. -/
def resetDoVariables (info : DoInfo) (vars : List Nat) : List Nat :=
  (doVarSids info).foldl (fun a v => deactivateVar v a) vars

/-- The ConstructNode pushed for a DO construct. -/
def doNode (info : DoInfo) : ConstructNode :=
  ⟨info.doSource, info.constructName,
    match info.control with
    | some (LoopControl.bounds _) => CKind.doNormal
    | some (LoopControl.concurrentCtl _ _) => CKind.doConcurrent
    | _ => CKind.doOther⟩

/-- The depth-first driver walk over one program unit.  Modelled from the
spec for the parts outside the checked source (the generic parse-tree
walker and the construct-stack maintenance): on entering a DO construct the
DO variables are activated and the node pushed; on leaving, the construct
is checked, the node popped and the variables deactivated.  CYCLE and EXIT
statements run the nesting check against the current stack.  Messages are
appended to the returned list in traversal order. -/
def walkUnit (cfg : Config) : Stmt → CoreState → CoreState × List Message
  | Stmt.skip, s => (s, [])
  | Stmt.seq a b, s =>
    let r1 := walkUnit cfg a s
    let r2 := walkUnit cfg b r1.1
    (r2.1, r1.2 ++ r2.2)
  | Stmt.doConstruct _ info body, s =>
    let entered : CoreState :=
      ⟨defineDoVariables info s.activeVars, s.stack ++ [doNode info]⟩
    let r := walkUnit cfg body entered
    (⟨resetDoVariables info r.1.activeVars, r.1.stack.dropLast⟩,
      r.2 ++ checkDo cfg info body)
  | Stmt.criticalConstruct src cn body, s =>
    let entered : CoreState := ⟨s.activeVars, s.stack ++ [⟨src, cn, CKind.critical⟩]⟩
    let r := walkUnit cfg body entered
    (⟨r.1.activeVars, r.1.stack.dropLast⟩, r.2)
  | Stmt.changeTeamConstruct src cn body, s =>
    let entered : CoreState := ⟨s.activeVars, s.stack ++ [⟨src, cn, CKind.changeTeam⟩]⟩
    let r := walkUnit cfg body entered
    (⟨r.1.activeVars, r.1.stack.dropLast⟩, r.2)
  | Stmt.blockConstruct _ _ _ _ body, s => walkUnit cfg body s
  | Stmt.cycleStmt src target, s => (s, checkNesting src StmtType.cycle target s.stack)
  | Stmt.exitStmt src target, s => (s, checkNesting src StmtType.exit target s.stack)
  | Stmt.assignment _ _ _ _, s => (s, [])
  | Stmt.deallocStmt _ _, s => (s, [])
  | Stmt.returnStmt _, s => (s, [])
  | Stmt.callStmt _ _, s => (s, [])
  | Stmt.exprStmt _ _, s => (s, [])
  | Stmt.ioStmt _ _, s => (s, [])
  | Stmt.imageControl _ _, s => (s, [])
  | Stmt.otherStmt _ _, s => (s, [])

/-! ### Cleanliness predicates (the hypotheses of the zero-diagnostic
properties, stated structurally on the tree) -/

/-- A procedure designator that triggers no body diagnostic: its symbol (if
resolved) is pure and is not IEEE_SET_HALTING_MODE from ieee_exceptions. -/
def desigClean : ProcDesignator → Bool
  | ProcDesignator.named symbol srcName =>
    (match symbol with
     | some s => s.isPureProc && !(s.ieeeModule && srcName == "ieee_set_halting_mode")
     | none => true)
  | ProcDesignator.procComponent symbol =>
    match symbol with
    | some s => s.isPureProc
    | none => true

/-- A body with no impure calls, no RETURN, no polymorphic deallocation (by
block exit, assignment or DEALLOCATE), no image control statement and no
ADVANCE specifier, relative to the loop scope `doScope`. -/
def bodyClean (doScope : Nat) : Stmt → Bool
  | Stmt.skip => true
  | Stmt.seq a b => bodyClean doScope a && bodyClean doScope b
  | Stmt.assignment _ lhs _ rhsDes =>
    rhsDes.all desigClean &&
    (match lhs.symbol with
     | some entity => !mightDeallocatePolymorphic entity deallocateNonCoarray
     | none => true)
  | Stmt.deallocStmt _ objs =>
    objs.all fun nm =>
      match nm.symbol with
      | some entity =>
        !((entity.hasType && entity.typePoly) ||
          mightDeallocatePolymorphic entity deallocateAll)
      | none => true
  | Stmt.returnStmt _ => false
  | Stmt.callStmt _ des => desigClean des
  | Stmt.exprStmt _ des => des.all desigClean
  | Stmt.ioStmt _ specs =>
    specs.all fun sp =>
      match sp with
      | IoSpec.advanceSpec => false
      | IoSpec.otherSpec => true
  | Stmt.imageControl _ _ => false
  | Stmt.blockConstruct _ blockSyms _ blockAncestors body =>
    (!(blockAncestors.contains doScope) ||
      blockSyms.all fun e =>
        !(e.allocatable && !e.saveAttr && mightDeallocatePolymorphic e deallocateAll)) &&
    bodyClean doScope body
  | Stmt.criticalConstruct _ _ _ => false
  | Stmt.changeTeamConstruct _ _ _ => false
  | Stmt.doConstruct _ _ body => bodyClean doScope body
  | Stmt.cycleStmt _ _ => true
  | Stmt.exitStmt _ _ => true
  | Stmt.otherStmt _ _ => true

/-- The expression references none of the symbols in `uses`. -/
def exprAvoidsSet (uses : List Symbol) (e : HExpr) : Bool :=
  (gatherSymbolsFromExpression e).all fun r => !memSym r uses

/-- No control expression of the header references an index-name. -/
def headerCollisionFree (h : ConcurrentHeader) : Bool :=
  h.controls.all fun c =>
    exprAvoidsSet (headerIndexNames h) c.clower &&
    exprAvoidsSet (headerIndexNames h) c.cupper &&
    (match c.cstep with
     | some e => exprAvoidsSet (headerIndexNames h) e
     | none => true)

/-- No step expression of the header is statically zero. -/
def headerNoZeroStep (h : ConcurrentHeader) : Bool :=
  h.controls.all fun c =>
    match c.cstep with
    | some e => !e.eisZero
    | none => true

/-- The mask (if any) references no impure procedure. -/
def maskPure (h : ConcurrentHeader) : Bool :=
  match h.mask with
  | some m => (gatherSymbolsFromExpression m).all fun r => !(r.isProc && !r.isPureProc)
  | none => true

/-- Number of DEFAULT(NONE) locality-specs. -/
def countDefaultNone (specs : List LocalitySpec) : Nat :=
  specs.countP fun ls => isDefaultNone ls

/-- No name in the body resolves to a variable of a strictly enclosing
scope (the DEFAULT(NONE) requirement). -/
def namesClean (d : DoInfo) (body : Stmt) : Bool :=
  (stmtNames body).all fun nm =>
    match nm.symbol with
    | some sym => !(sym.isVariable && d.strictAncestors.contains sym.ownerScope)
    | none => true

/-- The locality-specs trigger no diagnostic: either absent, or without
LOCAL-name collisions in header expressions, with at most one
DEFAULT(NONE), and with no implicit outer-scope capture under
DEFAULT(NONE). -/
def localityClean (d : DoInfo) (h : ConcurrentHeader)
    (specs : List LocalitySpec) (body : Stmt) : Bool :=
  specs.isEmpty ||
  ((h.controls.all fun c =>
      exprAvoidsSet (gatherLocals specs) c.clower &&
      exprAvoidsSet (gatherLocals specs) c.cupper &&
      (match c.cstep with
       | some e => exprAvoidsSet (gatherLocals specs) e
       | none => true)) &&
   (match h.mask with
    | some m => exprAvoidsSet (gatherLocals specs) m
    | none => true) &&
   decide (countDefaultNone specs ≤ 1) &&
   (!hasDefaultNoneSpec specs || namesClean d body))

/-- Number of RETURN statements anywhere in a statement tree, including
inside nested constructs. -/
def countReturns : Stmt → Nat
  | Stmt.skip => 0
  | Stmt.seq a b => countReturns a + countReturns b
  | Stmt.returnStmt _ => 1
  | Stmt.blockConstruct _ _ _ _ body => countReturns body
  | Stmt.criticalConstruct _ _ body => countReturns body
  | Stmt.changeTeamConstruct _ _ body => countReturns body
  | Stmt.doConstruct _ _ body => countReturns body
  | _ => 0

/-- Number of RETURN diagnostics in a message list. -/
def countReturnMsgs (msgs : List Message) : Nat :=
  (msgs.filter fun m => m.mtext == returnText).length

/-- Whether a message text is one of the three polymorphic-deallocation
texts (the diagnostics emitted through SayWithDecl). -/
def isDeallocText (t : String) : Bool :=
  t == blockExitDeallocText || t == assignDeallocText || t == deallocStmtText

/-! ### Generic list lemmas -/

theorem cmap_append {α β : Type} (f : α → List β) (l1 l2 : List α) :
    cmap f (l1 ++ l2) = cmap f l1 ++ cmap f l2 := by
  induction l1 with
  | nil => rfl
  | cons x xs ih => simp [cmap, ih]

theorem mem_cmap {α β : Type} (f : α → List β) (x : β) :
    ∀ (l : List α), x ∈ cmap f l ↔ ∃ a ∈ l, x ∈ f a := by
  intro l
  induction l with
  | nil => simp [cmap]
  | cons y ys ih => simp [cmap, ih, List.mem_append]

theorem cmap_eq_nil {α β : Type} (f : α → List β) :
    ∀ (l : List α), (∀ a ∈ l, f a = []) → cmap f l = [] := by
  intro l h
  induction l with
  | nil => rfl
  | cons x xs ih =>
    have hx := h x (List.mem_cons_self x xs)
    simp [cmap, hx]
    exact ih fun a ha => h a (List.mem_cons_of_mem x ha)

theorem find?_none_of_all {α : Type} (p : α → Bool) :
    ∀ (l : List α), (∀ x ∈ l, p x = false) → l.find? p = none := by
  intro l h
  induction l with
  | nil => rfl
  | cons x xs ih =>
    have hx := h x (List.mem_cons_self x xs)
    rw [List.find?_cons, hx]
    exact ih fun y hy => h y (List.mem_cons_of_mem x hy)

/-! ### Driver-walk lemmas: stack discipline and active-variable discipline -/

theorem mem_activateVar {a v : Nat} {l : List Nat} (h : a ∈ activateVar v l) :
    a ∈ l ∨ a = v := by
  unfold activateVar at h
  by_cases hc : l.contains v
  · rw [if_pos hc] at h; exact Or.inl h
  · rw [if_neg hc] at h
    rcases List.mem_append.mp h with h1 | h1
    · exact Or.inl h1
    · exact Or.inr (List.mem_singleton.mp h1)

theorem mem_foldl_activate {a : Nat} :
    ∀ (vs : List Nat) (l : List Nat),
      a ∈ vs.foldl (fun acc v => activateVar v acc) l → a ∈ l ∨ a ∈ vs := by
  intro vs
  induction vs with
  | nil => intro l h; exact Or.inl h
  | cons v rest ih =>
    intro l h
    rcases ih (activateVar v l) h with h1 | h1
    · rcases mem_activateVar h1 with h2 | h2
      · exact Or.inl h2
      · exact Or.inr (by simp [h2])
    · exact Or.inr (List.mem_cons_of_mem v h1)

theorem mem_deactivateVar {a v : Nat} {l : List Nat} :
    a ∈ deactivateVar v l ↔ a ∈ l ∧ a ≠ v := by
  unfold deactivateVar
  simp [List.mem_filter]

theorem mem_foldl_deactivate {a : Nat} :
    ∀ (vs : List Nat) (l : List Nat),
      a ∈ vs.foldl (fun acc v => deactivateVar v acc) l → a ∈ l ∧ a ∉ vs := by
  intro vs
  induction vs with
  | nil => intro l h; exact ⟨h, by simp⟩
  | cons v rest ih =>
    intro l h
    obtain ⟨h1, h2⟩ := ih (deactivateVar v l) h
    obtain ⟨h3, h4⟩ := mem_deactivateVar.mp h1
    exact ⟨h3, by simp [h2, h4]⟩

theorem mem_resetDoVariables {a : Nat} {info : DoInfo} {l : List Nat}
    (h : a ∈ resetDoVariables info l) : a ∈ l ∧ a ∉ doVarSids info :=
  mem_foldl_deactivate (doVarSids info) l h

theorem mem_defineDoVariables {a : Nat} {info : DoInfo} {l : List Nat}
    (h : a ∈ defineDoVariables info l) : a ∈ l ∨ a ∈ doVarSids info :=
  mem_foldl_activate (doVarSids info) l h

theorem walkUnit_stack (cfg : Config) :
    ∀ (st : Stmt) (s : CoreState), ((walkUnit cfg st s).1).stack = s.stack := by
  intro st
  induction st with
  | skip => intro s; rfl
  | seq a b iha ihb => intro s; simp [walkUnit, iha, ihb]
  | doConstruct src info body ih =>
    intro s
    show ((walkUnit cfg body ⟨defineDoVariables info s.activeVars,
      s.stack ++ [doNode info]⟩).1.stack).dropLast = s.stack
    rw [ih]
    simp
  | criticalConstruct src cn body ih =>
    intro s
    show ((walkUnit cfg body ⟨s.activeVars,
      s.stack ++ [(⟨src, cn, CKind.critical⟩ : ConstructNode)]⟩).1.stack).dropLast = s.stack
    rw [ih]
    simp
  | changeTeamConstruct src cn body ih =>
    intro s
    show ((walkUnit cfg body ⟨s.activeVars,
      s.stack ++ [(⟨src, cn, CKind.changeTeam⟩ : ConstructNode)]⟩).1.stack).dropLast = s.stack
    rw [ih]
    simp
  | blockConstruct src syms endSrc anc body ih => intro s; exact ih s
  | assignment src lhs lhsSrc rhsDes => intro s; rfl
  | deallocStmt src objs => intro s; rfl
  | returnStmt src => intro s; rfl
  | callStmt src des => intro s; rfl
  | exprStmt src des => intro s; rfl
  | ioStmt src specs => intro s; rfl
  | imageControl src co => intro s; rfl
  | cycleStmt src target => intro s; rfl
  | exitStmt src target => intro s; rfl
  | otherStmt src ns => intro s; rfl

theorem walkUnit_vars_subset (cfg : Config) :
    ∀ (st : Stmt) (s : CoreState),
      ((walkUnit cfg st s).1).activeVars ⊆ s.activeVars := by
  intro st
  induction st with
  | skip => intro s; exact fun a h => h
  | seq a b iha ihb =>
    intro s
    intro x hx
    simp only [walkUnit] at hx
    exact iha s (ihb _ hx)
  | doConstruct src info body ih =>
    intro s x hx
    have hx2 : x ∈ resetDoVariables info
        ((walkUnit cfg body ⟨defineDoVariables info s.activeVars,
          s.stack ++ [doNode info]⟩).1.activeVars) := hx
    obtain ⟨h1, h2⟩ := mem_resetDoVariables hx2
    have h3 := ih _ h1
    rcases mem_defineDoVariables h3 with h4 | h4
    · exact h4
    · exact absurd h4 h2
  | criticalConstruct src cn body ih =>
    intro s x hx
    have hx2 : x ∈ (walkUnit cfg body ⟨s.activeVars,
        s.stack ++ [(⟨src, cn, CKind.critical⟩ : ConstructNode)]⟩).1.activeVars := hx
    exact ih ⟨s.activeVars,
      s.stack ++ [(⟨src, cn, CKind.critical⟩ : ConstructNode)]⟩ hx2
  | changeTeamConstruct src cn body ih =>
    intro s x hx
    have hx2 : x ∈ (walkUnit cfg body ⟨s.activeVars,
        s.stack ++ [(⟨src, cn, CKind.changeTeam⟩ : ConstructNode)]⟩).1.activeVars := hx
    exact ih ⟨s.activeVars,
      s.stack ++ [(⟨src, cn, CKind.changeTeam⟩ : ConstructNode)]⟩ hx2
  | blockConstruct src syms endSrc anc body ih => intro s; exact ih s
  | assignment src lhs lhsSrc rhsDes => intro s; exact fun a h => h
  | deallocStmt src objs => intro s; exact fun a h => h
  | returnStmt src => intro s; exact fun a h => h
  | callStmt src des => intro s; exact fun a h => h
  | exprStmt src des => intro s; exact fun a h => h
  | ioStmt src specs => intro s; exact fun a h => h
  | imageControl src co => intro s; exact fun a h => h
  | cycleStmt src target => intro s; exact fun a h => h
  | exitStmt src target => intro s; exact fun a h => h
  | otherStmt src ns => intro s; exact fun a h => h

/-- The core state is exactly restored by a whole-unit walk started from
the reset state. -/
theorem walkUnit_restores (cfg : Config) (st : Stmt) :
    (walkUnit cfg st ⟨[], []⟩).1 = ⟨[], []⟩ := by
  have hv : ((walkUnit cfg st ⟨[], []⟩).1).activeVars = [] :=
    List.subset_nil.mp (walkUnit_vars_subset cfg st ⟨[], []⟩)
  have hs : ((walkUnit cfg st ⟨[], []⟩).1).stack = [] :=
    walkUnit_stack cfg st ⟨[], []⟩
  cases h : (walkUnit cfg st ⟨[], []⟩).1 with
  | mk v stk =>
    rw [h] at hv hs
    simp at hv hs
    rw [hv, hs]

/-! ### Zero-diagnostic lemmas for the concurrent checks -/

theorem procDesignatorMessages_eq_nil (doLoc src : Nat) (d : ProcDesignator)
    (h : desigClean d = true) : procDesignatorMessages doLoc src d = [] := by
  cases d with
  | named symbol srcName =>
    cases symbol with
    | none => rfl
    | some s =>
      simp only [desigClean, Bool.and_eq_true, Bool.not_eq_true'] at h
      obtain ⟨h1, h2⟩ := h
      simp [procDesignatorMessages, h1, h2]
  | procComponent symbol =>
    cases symbol with
    | none => rfl
    | some s =>
      simp only [desigClean] at h
      simp [procDesignatorMessages, h]

theorem blockExitMessages_eq_nil (endSrc : Nat) (e : Symbol)
    (h : (e.allocatable && !e.saveAttr && mightDeallocatePolymorphic e deallocateAll) = false) :
    blockExitMessages endSrc e = [] := by
  simp [blockExitMessages, h]

theorem deallocObjectMessages_eq_nil (src : Nat) (nm : Name)
    (h : (match nm.symbol with
          | some entity =>
            !((entity.hasType && entity.typePoly) ||
              mightDeallocatePolymorphic entity deallocateAll)
          | none => true) = true) :
    deallocObjectMessages src nm = [] := by
  cases hs : nm.symbol with
  | none => simp [deallocObjectMessages, hs]
  | some entity =>
    rw [hs] at h
    simp only [Bool.not_eq_true'] at h
    simp [deallocObjectMessages, hs, h]

theorem doConcurrentBodyEnforce_eq_nil (doLoc doScope : Nat) :
    ∀ (st : Stmt), bodyClean doScope st = true →
      doConcurrentBodyEnforce doLoc doScope st = [] := by
  intro st
  induction st with
  | skip => intro _; rfl
  | seq a b iha ihb =>
    intro h
    simp only [bodyClean, Bool.and_eq_true] at h
    simp [doConcurrentBodyEnforce, iha h.1, ihb h.2]
  | assignment src lhs lhsSrc rhsDes =>
    intro h
    simp only [bodyClean, Bool.and_eq_true] at h
    obtain ⟨h1, h2⟩ := h
    have hc : cmap (procDesignatorMessages doLoc src) rhsDes = [] :=
      cmap_eq_nil _ _ fun a ha =>
        procDesignatorMessages_eq_nil doLoc src a (List.all_eq_true.mp h1 a ha)
    cases hlhs : lhs.symbol with
    | none => simp [doConcurrentBodyEnforce, hc, hlhs]
    | some entity =>
      rw [hlhs] at h2
      simp only [Bool.not_eq_true'] at h2
      simp [doConcurrentBodyEnforce, hc, hlhs, h2]
  | deallocStmt src objs =>
    intro h
    simp only [bodyClean] at h
    exact cmap_eq_nil _ _ fun nm hnm =>
      deallocObjectMessages_eq_nil src nm (List.all_eq_true.mp h nm hnm)
  | returnStmt src => intro h; exact absurd h (by simp [bodyClean])
  | callStmt src des =>
    intro h
    simp only [bodyClean] at h
    exact procDesignatorMessages_eq_nil doLoc src des h
  | exprStmt src des =>
    intro h
    simp only [bodyClean] at h
    exact cmap_eq_nil _ _ fun a ha =>
      procDesignatorMessages_eq_nil doLoc src a (List.all_eq_true.mp h a ha)
  | ioStmt src specs =>
    intro h
    simp only [bodyClean] at h
    apply cmap_eq_nil
    intro sp hsp
    have := List.all_eq_true.mp h sp hsp
    cases sp with
    | advanceSpec => exact absurd this (by simp)
    | otherSpec => rfl
  | imageControl src co => intro h; exact absurd h (by simp [bodyClean])
  | blockConstruct src blockSyms endSrc blockAncestors body ih =>
    intro h
    simp only [bodyClean, Bool.and_eq_true] at h
    obtain ⟨h1, h2⟩ := h
    cases hin : blockAncestors.contains doScope with
    | true =>
      have h3 : blockSyms.all (fun e =>
          !(e.allocatable && !e.saveAttr && mightDeallocatePolymorphic e deallocateAll)) = true := by
        cases hall : blockSyms.all (fun e =>
            !(e.allocatable && !e.saveAttr && mightDeallocatePolymorphic e deallocateAll)) with
        | true => rfl
        | false => rw [hin, hall] at h1; simp at h1
      have hb : cmap (blockExitMessages endSrc) blockSyms = [] := by
        apply cmap_eq_nil
        intro e he
        have he2 := List.all_eq_true.mp h3 e he
        simp only [Bool.not_eq_true'] at he2
        exact blockExitMessages_eq_nil endSrc e he2
      simp only [doConcurrentBodyEnforce]
      rw [ih h2, hin, hb]
      simp
    | false =>
      simp only [doConcurrentBodyEnforce]
      rw [ih h2, hin]
      simp
  | criticalConstruct src cn body ih => intro h; exact absurd h (by simp [bodyClean])
  | changeTeamConstruct src cn body ih => intro h; exact absurd h (by simp [bodyClean])
  | doConstruct src info body ih =>
    intro h
    simp only [bodyClean] at h
    simp [doConcurrentBodyEnforce, ih h]
  | cycleStmt src target => intro _; rfl
  | exitStmt src target => intro _; rfl
  | otherStmt src ns => intro _; rfl

theorem checkNoCollisions_eq_nil (refs uses : List Symbol) (mkText : String → String)
    (refPos : Nat) (h : ∀ r ∈ refs, memSym r uses = false) :
    checkNoCollisions refs uses mkText refPos = [] := by
  unfold checkNoCollisions CheckNoCollisionsFind
  rw [find?_none_of_all _ refs h]

theorem hasNoReferences_eq_nil (uses : List Symbol) (e : HExpr)
    (h : exprAvoidsSet uses e = true) : hasNoReferences uses e = [] := by
  apply checkNoCollisions_eq_nil
  intro r hr
  have := List.all_eq_true.mp h r hr
  simpa [Bool.not_eq_true'] using this

theorem checkConcurrentHeader_eq_nil (h : ConcurrentHeader)
    (h1 : headerCollisionFree h = true) (h2 : headerNoZeroStep h = true) :
    checkConcurrentHeader h = [] := by
  unfold checkConcurrentHeader
  by_cases he : (headerIndexNames h).isEmpty
  · simp [he]
  · rw [if_neg he]
    apply cmap_eq_nil
    intro c hc
    have hcf := List.all_eq_true.mp h1 c hc
    have hz := List.all_eq_true.mp h2 c hc
    simp only [Bool.and_eq_true] at hcf
    obtain ⟨⟨hl, hu⟩, hst⟩ := hcf
    rw [hasNoReferences_eq_nil _ _ hl, hasNoReferences_eq_nil _ _ hu]
    cases hcs : c.cstep with
    | none => rfl
    | some e =>
      rw [hcs] at hst hz
      simp only at hst hz
      simp only [Bool.not_eq_true'] at hz
      simp [hasNoReferences_eq_nil _ _ hst, hz]

theorem checkMaskIsPure_eq_nil (pos : Nat) (m : HExpr)
    (h : (gatherSymbolsFromExpression m).all (fun r => !(r.isProc && !r.isPureProc)) = true) :
    checkMaskIsPure pos m = [] := by
  unfold checkMaskIsPure
  rw [find?_none_of_all]
  intro r hr
  have := List.all_eq_true.mp h r hr
  simp only [Bool.not_eq_true'] at this
  exact this

theorem checkExprDoesNotReferenceLocal_eq_nil (e : HExpr) (localVars : List Symbol)
    (h : exprAvoidsSet localVars e = true) :
    checkExprDoesNotReferenceLocal e localVars = [] := by
  apply checkNoCollisions_eq_nil
  intro r hr
  have := List.all_eq_true.mp h r hr
  simpa [Bool.not_eq_true'] using this

theorem checkMaskDoesNotReferenceLocal_eq_nil (m : HExpr) (localVars : List Symbol)
    (h : exprAvoidsSet localVars m = true) :
    checkMaskDoesNotReferenceLocal m localVars = [] := by
  apply checkNoCollisions_eq_nil
  intro r hr
  have := List.all_eq_true.mp h r hr
  simpa [Bool.not_eq_true'] using this

theorem dupDefaultNoneScan_eq_nil (pos : Nat) :
    ∀ (specs : List LocalitySpec) (flag : Bool),
      countDefaultNone specs + (if flag then 1 else 0) ≤ 1 →
      dupDefaultNoneScan pos specs flag = [] := by
  intro specs
  induction specs with
  | nil => intro flag _; rfl
  | cons ls rest ih =>
    intro flag h
    by_cases hd : isDefaultNone ls = true
    · have hcount : countDefaultNone (ls :: rest) = countDefaultNone rest + 1 := by
        simp [countDefaultNone, List.countP_cons, hd]
      rw [hcount] at h
      cases flag with
      | true =>
        exfalso
        simp at h
      | false =>
        simp only [dupDefaultNoneScan, hd, if_true]
        apply ih true
        have h2 : countDefaultNone rest + 1 ≤ 1 := by simpa using h
        simpa using h2
    · have hd2 : isDefaultNone ls = false := by
        cases hv : isDefaultNone ls
        · rfl
        · exact absurd hv hd
      have hcount : countDefaultNone (ls :: rest) = countDefaultNone rest := by
        simp [countDefaultNone, List.countP_cons, hd2]
      rw [hcount] at h
      simp only [dupDefaultNoneScan, hd2, Bool.false_eq_true, if_false]
      exact ih flag h

theorem doConcurrentVariableEnforce_eq_nil (d : DoInfo) (body : Stmt)
    (h : namesClean d body = true) : doConcurrentVariableEnforce d body = [] := by
  apply cmap_eq_nil
  intro nm hnm
  have := List.all_eq_true.mp h nm hnm
  cases hs : nm.symbol with
  | none => rfl
  | some sym =>
    rw [hs] at this
    simp only [Bool.not_eq_true'] at this
    simp only [hs]
    rw [this]
    simp

theorem checkDefaultNoneImpliesExplicitLocality_eq_nil (d : DoInfo)
    (specs : List LocalitySpec) (body : Stmt)
    (h1 : countDefaultNone specs ≤ 1)
    (h2 : hasDefaultNoneSpec specs = true → namesClean d body = true) :
    checkDefaultNoneImpliesExplicitLocality d specs body = [] := by
  unfold checkDefaultNoneImpliesExplicitLocality
  rw [dupDefaultNoneScan_eq_nil d.doSource specs false (by simpa using h1)]
  by_cases hd : hasDefaultNoneSpec specs = true
  · rw [if_pos hd, doConcurrentVariableEnforce_eq_nil d body (h2 hd)]; rfl
  · simp [hd]

theorem checkLocalitySpecs_eq_nil (d : DoInfo) (h : ConcurrentHeader)
    (specs : List LocalitySpec) (body : Stmt)
    (hloc : localityClean d h specs body = true) :
    checkLocalitySpecs d h specs body = [] := by
  unfold checkLocalitySpecs
  by_cases he : specs.isEmpty
  · simp [he]
  · rw [if_neg he]
    simp only [localityClean, Bool.or_eq_true, Bool.and_eq_true] at hloc
    rcases hloc with hv | hv
    · exact absurd hv he
    · obtain ⟨⟨⟨hc, hm⟩, hcount⟩, hdn⟩ := hv
      have hcm : cmap (fun c =>
          checkExprDoesNotReferenceLocal c.clower (gatherLocals specs) ++
          checkExprDoesNotReferenceLocal c.cupper (gatherLocals specs) ++
          (match c.cstep with
           | some e => checkExprDoesNotReferenceLocal e (gatherLocals specs)
           | none => [])) h.controls = [] := by
        apply cmap_eq_nil
        intro c hcmem
        have hcc := List.all_eq_true.mp hc c hcmem
        simp only [Bool.and_eq_true] at hcc
        obtain ⟨⟨hl, hu⟩, hstep⟩ := hcc
        rw [checkExprDoesNotReferenceLocal_eq_nil _ _ hl,
          checkExprDoesNotReferenceLocal_eq_nil _ _ hu]
        cases hcs : c.cstep with
        | none => rfl
        | some e =>
          rw [hcs] at hstep
          simp [checkExprDoesNotReferenceLocal_eq_nil _ _ hstep]
      have hmm : (match h.mask with
          | some m => checkMaskDoesNotReferenceLocal m (gatherLocals specs)
          | none => []) = [] := by
        cases hms : h.mask with
        | none => rfl
        | some m =>
          rw [hms] at hm
          exact checkMaskDoesNotReferenceLocal_eq_nil _ _ hm
      have hdd : checkDefaultNoneImpliesExplicitLocality d specs body = [] := by
        apply checkDefaultNoneImpliesExplicitLocality_eq_nil
        · exact of_decide_eq_true hcount
        · intro hdnn
          simp only [Bool.or_eq_true, Bool.not_eq_true'] at hdn
          rcases hdn with hv2 | hv2
          · simp [hdnn] at hv2
          · exact hv2
      rw [hcm, hmm, hdd]
      rfl

theorem checkConcurrentLoopControl_eq_nil (d : DoInfo) (h : ConcurrentHeader)
    (specs : List LocalitySpec) (body : Stmt)
    (h1 : maskPure h = true) (h2 : headerCollisionFree h = true)
    (h3 : headerNoZeroStep h = true)
    (h4 : localityClean d h specs body = true) :
    checkConcurrentLoopControl d h specs body = [] := by
  unfold checkConcurrentLoopControl
  have hmask : (match h.mask with
      | some m => checkMaskIsPure d.doSource m
      | none => []) = [] := by
    cases hms : h.mask with
    | none => rfl
    | some m =>
      apply checkMaskIsPure_eq_nil
      unfold maskPure at h1
      rw [hms] at h1
      exact h1
  rw [hmask, checkConcurrentHeader_eq_nil h h2 h3,
    checkLocalitySpecs_eq_nil d h specs body h4]
  rfl

/-! ### Attachment lemmas (which diagnostics carry the enclosing-DO note) -/

theorem mem_ite_nil {c : Prop} [Decidable c] {l : List Message} {m : Message}
    (h : m ∈ if c then l else []) : m ∈ l := by
  split at h
  · exact h
  · cases h

theorem isDealloc_block : isDeallocText blockExitDeallocText = true := by decide
theorem isDealloc_assign : isDeallocText assignDeallocText = true := by decide
theorem isDealloc_stmt : isDeallocText deallocStmtText = true := by decide

theorem procDesignatorMessages_attach (doLoc src : Nat) (d : ProcDesignator) :
    ∀ m ∈ procDesignatorMessages doLoc src d,
      Attachment.mk doLoc enclosingDoText ∈ m.attachments := by
  intro m hm
  cases d with
  | named symbol srcName =>
    cases symbol with
    | none => cases hm
    | some s =>
      simp only [procDesignatorMessages] at hm
      rcases List.mem_append.mp hm with h1 | h1
      · have h2 := mem_ite_nil h1
        rw [List.mem_singleton] at h2
        subst h2
        simp [sayWithDo]
      · have h2 := mem_ite_nil h1
        rw [List.mem_singleton] at h2
        subst h2
        simp [sayWithDo]
  | procComponent symbol =>
    cases symbol with
    | none => cases hm
    | some s =>
      simp only [procDesignatorMessages] at hm
      have h2 := mem_ite_nil hm
      rw [List.mem_singleton] at h2
      subst h2
      simp [sayWithDo]

theorem doConcurrentBodyEnforce_attachments (doLoc doScope : Nat) :
    ∀ (st : Stmt) (m : Message), m ∈ doConcurrentBodyEnforce doLoc doScope st →
      isDeallocText m.mtext = false →
      Attachment.mk doLoc enclosingDoText ∈ m.attachments := by
  intro st
  induction st with
  | skip => intro m hm _; cases hm
  | seq a b iha ihb =>
    intro m hm hnd
    rcases List.mem_append.mp hm with h1 | h1
    · exact iha m h1 hnd
    · exact ihb m h1 hnd
  | assignment src lhs lhsSrc rhsDes =>
    intro m hm hnd
    rcases List.mem_append.mp hm with h1 | h1
    · obtain ⟨a, _, hma⟩ := (mem_cmap _ m rhsDes).mp h1
      exact procDesignatorMessages_attach doLoc src a m hma
    · cases hlhs : lhs.symbol with
      | none => rw [hlhs] at h1; cases h1
      | some entity =>
        rw [hlhs] at h1
        have h2 := mem_ite_nil h1
        rw [List.mem_singleton] at h2
        subst h2
        have hnd2 : isDeallocText assignDeallocText = false := hnd
        rw [isDealloc_assign] at hnd2
        cases hnd2
  | deallocStmt src objs =>
    intro m hm hnd
    obtain ⟨nm, _, hma⟩ := (mem_cmap _ m objs).mp hm
    unfold deallocObjectMessages at hma
    cases hs : nm.symbol with
    | none => rw [hs] at hma; cases hma
    | some entity =>
      rw [hs] at hma
      have h2 := mem_ite_nil hma
      rw [List.mem_singleton] at h2
      subst h2
      have hnd2 : isDeallocText deallocStmtText = false := hnd
      rw [isDealloc_stmt] at hnd2
      cases hnd2
  | returnStmt src =>
    intro m hm _
    simp only [doConcurrentBodyEnforce] at hm
    rw [List.mem_singleton] at hm
    subst hm
    simp
  | callStmt src des =>
    intro m hm _
    exact procDesignatorMessages_attach doLoc src des m hm
  | exprStmt src des =>
    intro m hm _
    obtain ⟨a, _, hma⟩ := (mem_cmap _ m des).mp hm
    exact procDesignatorMessages_attach doLoc src a m hma
  | ioStmt src specs =>
    intro m hm _
    obtain ⟨sp, _, hma⟩ := (mem_cmap _ m specs).mp hm
    cases sp with
    | advanceSpec =>
      rw [List.mem_singleton] at hma
      subst hma
      simp [sayWithDo]
    | otherSpec => cases hma
  | imageControl src co =>
    intro m hm _
    simp only [doConcurrentBodyEnforce] at hm
    rw [List.mem_singleton] at hm
    subst hm
    simp
  | blockConstruct src blockSyms endSrc blockAncestors body ih =>
    intro m hm hnd
    rcases List.mem_append.mp hm with h1 | h1
    · exact ih m h1 hnd
    · have h2 := mem_ite_nil h1
      obtain ⟨e, _, hma⟩ := (mem_cmap _ m blockSyms).mp h2
      unfold blockExitMessages at hma
      have h3 := mem_ite_nil hma
      rw [List.mem_singleton] at h3
      subst h3
      have hnd2 : isDeallocText blockExitDeallocText = false := hnd
      rw [isDealloc_block] at hnd2
      cases hnd2
  | criticalConstruct src cn body ih =>
    intro m hm hnd
    rcases List.mem_append.mp hm with h1 | h1
    · exact ih m h1 hnd
    · rw [List.mem_singleton] at h1
      subst h1
      simp
  | changeTeamConstruct src cn body ih =>
    intro m hm hnd
    rcases List.mem_append.mp hm with h1 | h1
    · exact ih m h1 hnd
    · rw [List.mem_singleton] at h1
      subst h1
      simp
  | doConstruct src info body ih =>
    intro m hm hnd
    exact ih m hm hnd
  | cycleStmt src target => intro m hm _; cases hm
  | exitStmt src target => intro m hm _; cases hm
  | otherStmt src ns => intro m hm _; cases hm

/-! ### RETURN-diagnostic counting (the body walk recurses into nested
concurrent bodies) -/

theorem countReturnMsgs_append (l1 l2 : List Message) :
    countReturnMsgs (l1 ++ l2) = countReturnMsgs l1 + countReturnMsgs l2 := by
  simp [countReturnMsgs, List.filter_append]

theorem countReturnMsgs_singleton (m : Message) :
    countReturnMsgs [m] = if m.mtext == returnText then 1 else 0 := by
  cases h : (m.mtext == returnText) <;> simp [countReturnMsgs, List.filter, h]

theorem countReturnMsgs_ite (c : Prop) [Decidable c] (l : List Message) :
    countReturnMsgs (if c then l else []) = if c then countReturnMsgs l else 0 := by
  split <;> rfl

theorem countReturnMsgs_cmap_zero {α : Type} (f : α → List Message) :
    ∀ (l : List α), (∀ a ∈ l, countReturnMsgs (f a) = 0) →
      countReturnMsgs (cmap f l) = 0 := by
  intro l h
  induction l with
  | nil => rfl
  | cons x xs ih =>
    rw [show cmap f (x :: xs) = f x ++ cmap f xs from rfl, countReturnMsgs_append,
      h x (List.mem_cons_self x xs), ih fun a ha => h a (List.mem_cons_of_mem x ha)]

theorem impure_ne_ret : (impureCallText == returnText) = false := by decide
theorem ieee_ne_ret : (ieeeHaltingText == returnText) = false := by decide
theorem impureComp_ne_ret : (impureComponentText == returnText) = false := by decide
theorem advance_ne_ret : (advanceText == returnText) = false := by decide
theorem image_ne_ret : (imageControlText == returnText) = false := by decide
theorem blockExit_ne_ret : (blockExitDeallocText == returnText) = false := by decide
theorem assign_ne_ret : (assignDeallocText == returnText) = false := by decide
theorem deallocTxt_ne_ret : (deallocStmtText == returnText) = false := by decide

theorem countReturnMsgs_procDesig_zero (doLoc src : Nat) (d : ProcDesignator) :
    countReturnMsgs (procDesignatorMessages doLoc src d) = 0 := by
  cases d with
  | named symbol srcName =>
    cases symbol with
    | none => rfl
    | some s =>
      simp [procDesignatorMessages, countReturnMsgs_append, countReturnMsgs_ite,
        countReturnMsgs_singleton, sayWithDo, impure_ne_ret, ieee_ne_ret]
  | procComponent symbol =>
    cases symbol with
    | none => rfl
    | some s =>
      simp [procDesignatorMessages, countReturnMsgs_ite, countReturnMsgs_singleton,
        sayWithDo, impureComp_ne_ret]

theorem countReturnMsgs_sayWithDecl (sym : Symbol) (loc : Nat) (text : String)
    (fatal : Bool) (h : (text == returnText) = false) :
    countReturnMsgs [sayWithDecl sym loc text fatal] = 0 := by
  simp [countReturnMsgs_singleton, sayWithDecl, h]

theorem doConcurrentBodyEnforce_countReturns (doLoc doScope : Nat) :
    ∀ (st : Stmt),
      countReturnMsgs (doConcurrentBodyEnforce doLoc doScope st) = countReturns st := by
  intro st
  induction st with
  | skip => rfl
  | seq a b iha ihb =>
    show countReturnMsgs (doConcurrentBodyEnforce doLoc doScope a ++
      doConcurrentBodyEnforce doLoc doScope b) = countReturns a + countReturns b
    rw [countReturnMsgs_append, iha, ihb]
  | assignment src lhs lhsSrc rhsDes =>
    show countReturnMsgs (cmap (procDesignatorMessages doLoc src) rhsDes ++ _) = 0
    rw [countReturnMsgs_append,
      countReturnMsgs_cmap_zero _ rhsDes fun a _ => countReturnMsgs_procDesig_zero doLoc src a]
    cases hlhs : lhs.symbol with
    | none => rfl
    | some entity =>
      simp only
      rw [countReturnMsgs_ite]
      simp [countReturnMsgs_sayWithDecl _ _ _ _ assign_ne_ret]
  | deallocStmt src objs =>
    show countReturnMsgs (cmap (deallocObjectMessages src) objs) = 0
    apply countReturnMsgs_cmap_zero
    intro nm _
    unfold deallocObjectMessages
    cases hs : nm.symbol with
    | none => rfl
    | some entity =>
      rw [countReturnMsgs_ite]
      simp [countReturnMsgs_sayWithDecl _ _ _ _ deallocTxt_ne_ret]
  | returnStmt src =>
    show countReturnMsgs [⟨src, returnText, true, [⟨doLoc, enclosingDoText⟩]⟩] = 1
    simp [countReturnMsgs_singleton]
  | callStmt src des => exact countReturnMsgs_procDesig_zero doLoc src des
  | exprStmt src des =>
    exact countReturnMsgs_cmap_zero _ des fun a _ => countReturnMsgs_procDesig_zero doLoc src a
  | ioStmt src specs =>
    apply countReturnMsgs_cmap_zero
    intro sp _
    cases sp with
    | advanceSpec => simp [countReturnMsgs_singleton, sayWithDo, advance_ne_ret]
    | otherSpec => rfl
  | imageControl src co =>
    show countReturnMsgs [⟨src, imageControlText, true, _⟩] = 0
    simp [countReturnMsgs_singleton, image_ne_ret]
  | blockConstruct src blockSyms endSrc blockAncestors body ih =>
    show countReturnMsgs (doConcurrentBodyEnforce doLoc doScope body ++ _) = countReturns body
    rw [countReturnMsgs_append, ih, countReturnMsgs_ite]
    have hz : countReturnMsgs (cmap (blockExitMessages endSrc) blockSyms) = 0 := by
      apply countReturnMsgs_cmap_zero
      intro e _
      unfold blockExitMessages
      rw [countReturnMsgs_ite]
      simp [countReturnMsgs_sayWithDecl _ _ _ _ blockExit_ne_ret]
    rw [hz]
    simp
  | criticalConstruct src cn body ih =>
    show countReturnMsgs (doConcurrentBodyEnforce doLoc doScope body ++
      [⟨src, imageControlText, true, [⟨doLoc, enclosingDoText⟩]⟩]) = countReturns body
    rw [countReturnMsgs_append, ih]
    simp [countReturnMsgs_singleton, image_ne_ret]
  | changeTeamConstruct src cn body ih =>
    show countReturnMsgs (doConcurrentBodyEnforce doLoc doScope body ++
      [⟨src, imageControlText, true, [⟨doLoc, enclosingDoText⟩]⟩]) = countReturns body
    rw [countReturnMsgs_append, ih]
    simp [countReturnMsgs_singleton, image_ne_ret]
  | doConstruct src info body ih => exact ih
  | cycleStmt src target => rfl
  | exitStmt src target => rfl
  | otherStmt src ns => rfl

/-! ### Duplicate DEFAULT(NONE) and jump-nesting lemmas -/

theorem dupDefaultNoneScan_dup (pos : Nat) :
    ∀ (specs : List LocalitySpec) (flag : Bool),
      2 ≤ countDefaultNone specs + (if flag then 1 else 0) →
      dupDefaultNoneScan pos specs flag =
        [⟨pos, onlyOneDefaultNoneText, false, []⟩] := by
  intro specs
  induction specs with
  | nil =>
    intro flag h
    exfalso
    cases flag <;> simp [countDefaultNone] at h
  | cons ls rest ih =>
    intro flag h
    by_cases hd : isDefaultNone ls = true
    · have hcount : countDefaultNone (ls :: rest) = countDefaultNone rest + 1 := by
        simp [countDefaultNone, List.countP_cons, hd]
      cases flag with
      | true => simp [dupDefaultNoneScan, hd]
      | false =>
        simp only [dupDefaultNoneScan, hd, if_true]
        apply ih true
        rw [hcount] at h
        simp at h ⊢
        omega
    · have hd2 : isDefaultNone ls = false := by
        cases hv : isDefaultNone ls
        · rfl
        · exact absurd hv hd
      have hcount : countDefaultNone (ls :: rest) = countDefaultNone rest := by
        simp [countDefaultNone, List.countP_cons, hd2]
      simp only [dupDefaultNoneScan, hd2, Bool.false_eq_true, if_false]
      apply ih flag
      rw [hcount] at h
      exact h

theorem checkNestingScan_no_match (stmtLoc : Nat) (t : StmtType) (stmtName : Option String) :
    ∀ (l : List ConstructNode),
      (∀ c ∈ l, stmtMatchesConstruct stmtName t c = false) →
      checkNestingScan stmtLoc t stmtName l =
        cmap (checkForBadLeave stmtLoc t) l ++ [noMatchingMsg stmtLoc t] := by
  intro l
  induction l with
  | nil => intro _; rfl
  | cons c rest ih =>
    intro h
    have hc := h c (List.mem_cons_self c rest)
    simp only [checkNestingScan, hc, Bool.false_eq_true, if_false, cmap]
    rw [ih fun x hx => h x (List.mem_cons_of_mem c hx)]
    simp

theorem headerIndexNames_nil_aux :
    ∀ (l : List ConcurrentControl) (acc : List Symbol),
      (∀ c ∈ l, c.cname.symbol = none) →
      l.foldl (fun acc c =>
        match c.cname.symbol with
        | some s => insertSym s acc
        | none => acc) acc = acc := by
  intro l
  induction l with
  | nil => intro acc _; rfl
  | cons c rest ih =>
    intro acc h
    have hc := h c (List.mem_cons_self c rest)
    rw [List.foldl_cons]
    rw [show (match c.cname.symbol with
      | some s => insertSym s acc
      | none => acc) = acc by rw [hc]]
    exact ih acc fun x hx => h x (List.mem_cons_of_mem c hx)

/-! ### Concrete instances used by witnesses and counterexamples -/

/-- Default conformance configuration (no warnings enabled). -/
def cfg0 : Config := ⟨false, false⟩

/-- Strict-conformance configuration (nonstandard-usage warnings on). -/
def cfgStrict : Config := ⟨true, true⟩

/-- An ordinary resolved integer variable symbol, used as a template. -/
def baseSymbol : Symbol :=
  { sid := 0, sname := "x", declLoc := 0, hasRoot := true, rootPolyAlloc := false,
    rootUltimates := [], hasType := true, typePoly := false, typeInteger := true,
    typeReal := false, allocatable := false, saveAttr := false, isProc := false,
    isPureProc := false, ieeeModule := false, isVariable := true, ownerScope := 0 }

def symI : Symbol := { baseSymbol with sid := 101, sname := "i", declLoc := 11 }
def symJ : Symbol := { baseSymbol with sid := 102, sname := "j", declLoc := 12 }
def nVar : Symbol := { baseSymbol with sid := 103, sname := "n", declLoc := 13 }

/-- A polymorphic allocatable variable (deallocated by assignment). -/
def polyVar : Symbol :=
  { baseSymbol with sid := 201, sname := "p", declLoc := 21, rootPolyAlloc := true, allocatable := true }

/-- A literal integer expression referencing no symbols. -/
def intExpr (src : Nat) : HExpr :=
  { esource := src, hasExpr := true, esymbols := [], eisZero := false,
    typeInteger := true, typeReal := false }

/-- An integer expression statically equal to zero. -/
def zeroStepExpr (src : Nat) : HExpr :=
  { esource := src, hasExpr := true, esymbols := [], eisZero := true,
    typeInteger := true, typeReal := false }

/-- Concurrent header (i = 1:10:0): collision-free but with a zero step. -/
def c1header : ConcurrentHeader :=
  { controls := [⟨⟨2, "i", some symI⟩, intExpr 3, intExpr 4, some (zeroStepExpr 5)⟩],
    mask := none }

def c1info : DoInfo :=
  { doSource := 1, scopeId := 10, strictAncestors := [9], constructName := none,
    control := some (LoopControl.concurrentCtl c1header []) }

/-- Concurrent header (i = 1:10): fully clean. -/
def c1wHeader : ConcurrentHeader :=
  { controls := [⟨⟨2, "i", some symI⟩, intExpr 3, intExpr 4, none⟩], mask := none }

def c1wInfo : DoInfo :=
  { doSource := 1, scopeId := 10, strictAncestors := [9], constructName := none,
    control := some (LoopControl.concurrentCtl c1wHeader []) }

/-- An assignment whose left-hand side is the polymorphic allocatable. -/
def c2stmt : Stmt := Stmt.assignment 30 ⟨31, "p", some polyVar⟩ 32 []

/-- Inner DO CONCURRENT (j = 1:10) whose body is a single RETURN. -/
def innerHeader : ConcurrentHeader :=
  { controls := [⟨⟨4, "j", some symJ⟩, intExpr 6, intExpr 7, none⟩], mask := none }

def innerInfo : DoInfo :=
  { doSource := 3, scopeId := 20, strictAncestors := [10, 9], constructName := none,
    control := some (LoopControl.concurrentCtl innerHeader []) }

def innerDo : Stmt := Stmt.doConstruct 3 innerInfo (Stmt.returnStmt 5)

/-- Outer DO CONCURRENT (i = 1:10) whose body is the inner construct. -/
def outerInfo : DoInfo :=
  { doSource := 1, scopeId := 10, strictAncestors := [9], constructName := none,
    control := some (LoopControl.concurrentCtl c1wHeader []) }

def c3program : Stmt := Stmt.doConstruct 1 outerInfo innerDo

/-- A mask expression referencing the index-name i. -/
def c4maskExpr : HExpr :=
  { esource := 20, hasExpr := true, esymbols := [symI], eisZero := false,
    typeInteger := false, typeReal := false }

def c4header : ConcurrentHeader :=
  { controls := [⟨⟨2, "i", some symI⟩, intExpr 3, intExpr 4, none⟩],
    mask := some c4maskExpr }

def c4info : DoInfo :=
  { doSource := 1, scopeId := 10, strictAncestors := [9], constructName := none,
    control := some (LoopControl.concurrentCtl c4header []) }

/-- Counted-loop bounds n = 1, 10, 1 (integer, nonzero step). -/
def c5wBounds : BoundsCtl :=
  { bname := ⟨40, "n", some nVar⟩, lower := intExpr 41, upper := intExpr 42,
    step := some (intExpr 43) }

/-- Counted-loop bounds n = 1, 10, 0 (integer, literal zero step). -/
def c5zBounds : BoundsCtl :=
  { bname := ⟨40, "n", some nVar⟩, lower := intExpr 41, upper := intExpr 42,
    step := some (zeroStepExpr 7) }

def c6info : DoInfo :=
  { doSource := 4, scopeId := 10, strictAncestors := [9], constructName := none,
    control := none }

/-- Concurrent header whose only index-name did not resolve to a symbol,
with a statically zero step. -/
def c10header : ConcurrentHeader :=
  { controls := [⟨⟨2, "i", none⟩, intExpr 3, intExpr 4, some (zeroStepExpr 5)⟩],
    mask := none }

/-! ### Claim theorems -/

/-- C1 (counterexample): a DO CONCURRENT construct whose body is empty (so
it has no impure calls, no early exit and no polymorphic deallocation) and
whose header (i = 1:10:0) is free of index-name collisions nevertheless
receives one diagnostic, because the step expression is statically zero.
This refutes the claim that the stated conditions alone imply zero
diagnostics. -/
theorem c1_counterexample :
    bodyClean c1info.scopeId Stmt.skip = true ∧
    headerCollisionFree c1header = true ∧
    maskPure c1header = true ∧
    checkDo cfg0 c1info Stmt.skip = [⟨5, concZeroStepText, true, []⟩] := by
  decide

/-- C1 (amended): a DO CONCURRENT construct whose body is clean (no impure
procedure designators, no RETURN, no polymorphic deallocation by block
exit, assignment or DEALLOCATE, no image control statement, no ADVANCE
specifier), whose header is free of index-name collisions and statically
zero steps, whose mask references no impure procedure, and whose
locality-specs are collision-free with at most one DEFAULT(NONE) and no
implicit outer-scope capture under DEFAULT(NONE), receives zero
diagnostics from the per-construct check. -/
theorem c1_clean_concurrent_no_diagnostics (cfg : Config) (info : DoInfo)
    (h : ConcurrentHeader) (specs : List LocalitySpec) (body : Stmt)
    (hctl : info.control = some (LoopControl.concurrentCtl h specs))
    (hbody : bodyClean info.scopeId body = true)
    (hcoll : headerCollisionFree h = true)
    (hzero : headerNoZeroStep h = true)
    (hmask : maskPure h = true)
    (hlocal : localityClean info h specs body = true) :
    checkDo cfg info body = [] := by
  unfold checkDo
  rw [hctl]
  simp only
  rw [doConcurrentBodyEnforce_eq_nil _ _ body hbody,
    checkConcurrentLoopControl_eq_nil info h specs body hmask hcoll hzero hlocal]
  rfl

/-- Witness for C1: the clean construct (i = 1:10) with an empty body gets
zero diagnostics. -/
theorem c1_clean_concurrent_no_diagnostics_witness :
    bodyClean c1wInfo.scopeId Stmt.skip = true ∧
    checkDo cfg0 c1wInfo Stmt.skip = [] :=
  ⟨by decide,
    c1_clean_concurrent_no_diagnostics cfg0 c1wInfo c1wHeader [] Stmt.skip rfl
      (by decide) (by decide) (by decide) (by decide) (by decide)⟩

/-- C2 (counterexample): the deallocation-by-assignment diagnostic is
emitted through SayWithDecl, so its only attachment is the declaration of
the entity; it does not carry the enclosing DO CONCURRENT header
attachment the claim asserts for every violation. -/
theorem c2_counterexample :
    doConcurrentBodyEnforce 1 10 c2stmt =
      [⟨32, assignDeallocText, true, [⟨21, declarationText "p"⟩]⟩] ∧
    ¬ (Attachment.mk 1 enclosingDoText ∈
        (⟨32, assignDeallocText, true, [⟨21, declarationText "p"⟩]⟩ : Message).attachments) := by
  decide

/-- C2 (amended): every diagnostic of the concurrent-body enforcer other
than the three polymorphic-deallocation diagnostics (block exit,
assignment, DEALLOCATE — which attach the entity declaration instead)
carries a secondary attachment at the enclosing DO CONCURRENT statement;
and a body consisting solely of a RETURN yields exactly one diagnostic so
attached. -/
theorem c2_attachment_characterization (doLoc doScope : Nat) :
    (∀ (st : Stmt) (m : Message), m ∈ doConcurrentBodyEnforce doLoc doScope st →
       isDeallocText m.mtext = false →
       Attachment.mk doLoc enclosingDoText ∈ m.attachments) ∧
    (∀ src : Nat, doConcurrentBodyEnforce doLoc doScope (Stmt.returnStmt src) =
       [⟨src, returnText, true, [⟨doLoc, enclosingDoText⟩]⟩]) :=
  ⟨fun st => doConcurrentBodyEnforce_attachments doLoc doScope st, fun _ => rfl⟩

/-- Witness for C2: the RETURN diagnostic of a single-RETURN body carries
the enclosing-DO attachment. -/
theorem c2_attachment_characterization_witness :
    (⟨5, returnText, true, [⟨1, enclosingDoText⟩]⟩ : Message) ∈
      doConcurrentBodyEnforce 1 10 (Stmt.returnStmt 5) ∧
    Attachment.mk 1 enclosingDoText ∈
      (⟨5, returnText, true, [⟨1, enclosingDoText⟩]⟩ : Message).attachments :=
  ⟨by decide,
    (c2_attachment_characterization 1 10).1 (Stmt.returnStmt 5)
      ⟨5, returnText, true, [⟨1, enclosingDoText⟩]⟩ (by decide) (by decide)⟩

/-- C3 (counterexample): a RETURN inside a DO CONCURRENT that is itself
nested in another DO CONCURRENT is diagnosed twice — once by the inner
construct's own check and once by the outer construct's body walk, which
does recurse into the nested concurrent body.  This refutes the claim
that the violation is diagnosed exactly once. -/
theorem c3_counterexample :
    (walkUnit cfg0 c3program ⟨[], []⟩).2 =
      [⟨5, returnText, true, [⟨3, enclosingDoText⟩]⟩,
       ⟨5, returnText, true, [⟨1, enclosingDoText⟩]⟩] ∧
    countReturnMsgs (walkUnit cfg0 c3program ⟨[], []⟩).2 = 2 := by
  decide

/-- C3 (amended): the body walk of a DO CONCURRENT construct recurses into
every nested construct, including nested DO CONCURRENT bodies: the number
of RETURN diagnostics it emits equals the number of RETURN statements
anywhere in the walked tree, so a violation in an inner concurrent body is
re-diagnosed by each enclosing concurrent construct's walk in addition to
the inner construct's own check. -/
theorem c3_body_walk_counts_nested_returns (doLoc doScope : Nat) (st : Stmt) :
    countReturnMsgs (doConcurrentBodyEnforce doLoc doScope st) = countReturns st :=
  doConcurrentBodyEnforce_countReturns doLoc doScope st

/-- C4 (counterexample): for a header (i = 1:10) whose mask references the
index-name i, the full concurrent-loop-control check emits no diagnostic
at all, refuting the claim that the index-collision check reports an error
when the mask references an index-name. -/
theorem c4_counterexample :
    memSym symI (gatherSymbolsFromExpression c4maskExpr) = true ∧
    memSym symI (headerIndexNames c4header) = true ∧
    checkConcurrentLoopControl c4info c4header [] Stmt.skip = [] := by
  decide

/-- C4 (amended): the index-collision check of the concurrent header covers
only each control's lower, upper and step expressions; the mask expression
is never compared against the index names — the header check is invariant
under any change of the mask. -/
theorem c4_header_check_ignores_mask (controls : List ConcurrentControl)
    (m1 m2 : Option HExpr) :
    checkConcurrentHeader ⟨controls, m1⟩ = checkConcurrentHeader ⟨controls, m2⟩ := rfl

/-- C5 (counterexample): for a counted loop with integer control variable
and bounds and a literal-zero step, even under the strict-conformance
configuration the single zero-step diagnostic is non-fatal (a warning, the
message text carries no error mark), refuting the claim that it has
severity Error in strict mode. -/
theorem c5_counterexample :
    checkDoNormal cfgStrict c5zBounds = [⟨7, doStepZeroText, false, []⟩] := by
  decide

/-- C5 (amended): for a counted loop with an integer control variable and
integer bounds and step, zero diagnostics are emitted when the step is not
statically zero, and exactly one non-fatal (warning) diagnostic for the
step expression when it is statically zero — under every conformance
configuration. -/
theorem c5_integer_counted_loop (cfg : Config) (b : BoundsCtl) (s : Symbol)
    (st : HExpr)
    (h1 : b.bname.symbol = some s) (h2 : s.isVariable = true)
    (h3 : s.hasType = true) (h4 : s.typeInteger = true)
    (h5 : b.lower.hasExpr = true) (h6 : b.lower.typeInteger = true)
    (h7 : b.upper.hasExpr = true) (h8 : b.upper.typeInteger = true)
    (h9 : b.step = some st) (h10 : st.hasExpr = true) (h11 : st.typeInteger = true) :
    checkDoNormal cfg b =
      if st.eisZero then [⟨st.esource, doStepZeroText, false, []⟩] else [] := by
  unfold checkDoNormal checkDoVariable checkDoExpression
  rw [h1, h9]
  simp [h2, h3, h4, h5, h6, h7, h8, h10, h11]

/-- Witness for C5: the loop n = 1, 10, 1 receives zero diagnostics. -/
theorem c5_integer_counted_loop_witness :
    c5wBounds.bname.symbol = some nVar ∧ checkDoNormal cfg0 c5wBounds = [] := by
  constructor
  · rfl
  · have h := c5_integer_counted_loop cfg0 c5wBounds nVar (intExpr 43) rfl
      (by decide) (by decide) (by decide) (by decide) (by decide) (by decide)
      (by decide) rfl (by decide) (by decide)
    simpa [intExpr] using h

/-- C6 (counterexample): with three DEFAULT(NONE) locality-specs the check
emits exactly one duplicate diagnostic, and it is non-fatal (a warning),
refuting the claim that an error diagnostic is reported. -/
theorem c6_counterexample :
    checkDefaultNoneImpliesExplicitLocality c6info
      [LocalitySpec.defaultNone, LocalitySpec.defaultNone, LocalitySpec.defaultNone]
      Stmt.skip =
      [⟨4, onlyOneDefaultNoneText, false, []⟩] := by
  decide

/-- C6 (amended): whenever a locality-spec list contains two or more
DEFAULT(NONE) specs, the scan emits exactly one non-fatal duplicate
diagnostic (at the second occurrence the scan reports once and stops), no
matter how many further occurrences follow. -/
theorem c6_duplicate_default_none (pos : Nat) (specs : List LocalitySpec)
    (h : 2 ≤ countDefaultNone specs) :
    dupDefaultNoneScan pos specs false =
      [⟨pos, onlyOneDefaultNoneText, false, []⟩] := by
  apply dupDefaultNoneScan_dup
  simpa using h

/-- Witness for C6: two DEFAULT(NONE) specs yield the single non-fatal
diagnostic. -/
theorem c6_duplicate_default_none_witness :
    2 ≤ countDefaultNone [LocalitySpec.defaultNone, LocalitySpec.defaultNone] ∧
    dupDefaultNoneScan 4 [LocalitySpec.defaultNone, LocalitySpec.defaultNone] false =
      [⟨4, onlyOneDefaultNoneText, false, []⟩] :=
  ⟨by decide, c6_duplicate_default_none 4 _ (by decide)⟩

/-- C7 (counterexample): a labeled EXIT whose label matches no enclosing
construct, inside a CRITICAL construct, receives two diagnostics — the
must-not-leave-CRITICAL diagnostic for the construct crossed and the
no-matching-construct diagnostic — refuting the claim that exactly one
diagnostic is emitted and no others. -/
theorem c7_counterexample :
    checkNesting 3 StmtType.exit (some "foo") [⟨7, none, CKind.critical⟩] =
      [sayBadLeave 3 StmtType.exit "CRITICAL" 7, noMatchingMsg 3 StmtType.exit] ∧
    (checkNesting 3 StmtType.exit (some "foo") [⟨7, none, CKind.critical⟩]).length = 2 := by
  decide

/-- C7 (amended): when no construct on the stack matches a CYCLE or EXIT
statement, the nesting check emits exactly one standalone
no-matching-construct diagnostic, preceded by one must-not-leave
diagnostic for each DO CONCURRENT, CRITICAL or CHANGE TEAM construct
crossed (innermost first); only when no such construct is on the stack is
the total exactly one diagnostic. -/
theorem c7_no_match_diagnostics (stmtLoc : Nat) (t : StmtType)
    (stmtName : Option String) (stack : List ConstructNode)
    (h : ∀ c ∈ stack, stmtMatchesConstruct stmtName t c = false) :
    checkNesting stmtLoc t stmtName stack =
      cmap (checkForBadLeave stmtLoc t) stack.reverse ++ [noMatchingMsg stmtLoc t] := by
  unfold checkNesting
  apply checkNestingScan_no_match
  intro c hc
  exact h c (List.mem_reverse.mp hc)

/-- Witness for C7: an EXIT labeled foo inside an unmatching counted DO
named bar yields exactly the no-matching diagnostic. -/
theorem c7_no_match_diagnostics_witness :
    stmtMatchesConstruct (some "foo") StmtType.exit ⟨7, some "bar", CKind.doNormal⟩ = false ∧
    checkNesting 3 StmtType.exit (some "foo") [⟨7, some "bar", CKind.doNormal⟩] =
      cmap (checkForBadLeave 3 StmtType.exit)
        ([(⟨7, some "bar", CKind.doNormal⟩ : ConstructNode)].reverse) ++
      [noMatchingMsg 3 StmtType.exit] :=
  ⟨by decide,
    c7_no_match_diagnostics 3 StmtType.exit (some "foo")
      [⟨7, some "bar", CKind.doNormal⟩] (by decide)⟩

/-- C8 (confirmed): after the driver walk of any program unit starting
from the reset state, both the active-DO-variable set and the
ConstructStack are empty: every enter (activate and push) is matched by
the corresponding leave (deactivate and pop). -/
theorem c8_stack_discipline (cfg : Config) (unit : Stmt) :
    ((walkUnit cfg unit ⟨[], []⟩).1).activeVars = [] ∧
    ((walkUnit cfg unit ⟨[], []⟩).1).stack = [] := by
  have h := walkUnit_restores cfg unit
  exact ⟨by rw [h], by rw [h]⟩

/-- C9 (confirmed): the pass is deterministic and idempotent — running the
checker a second time over the same unchanged unit, continuing from the
state left by the first run, appends exactly the same diagnostic list in
the same order (the first run restores the reset state). -/
theorem c9_idempotent (cfg : Config) (unit : Stmt) :
    (walkUnit cfg unit ((walkUnit cfg unit ⟨[], []⟩).1)).2 =
      (walkUnit cfg unit ⟨[], []⟩).2 := by
  rw [walkUnit_restores cfg unit]

/-- C10 (confirmed): when no index-name of a concurrent header resolves to
a symbol, the header check (index-collision and zero-step) does not run,
so even a statically-zero step expression produces no diagnostic. -/
theorem c10_unresolved_index_names (h : ConcurrentHeader)
    (hall : ∀ c ∈ h.controls, c.cname.symbol = none) :
    checkConcurrentHeader h = [] := by
  have hempty : headerIndexNames h = [] := by
    unfold headerIndexNames
    exact headerIndexNames_nil_aux h.controls [] hall
  unfold checkConcurrentHeader
  rw [hempty]
  rfl

/-- Witness for C10: the header (i = 1:10:0) with an unresolved index-name
and a zero step produces no diagnostic. -/
theorem c10_unresolved_index_names_witness :
    (⟨⟨2, "i", none⟩, intExpr 3, intExpr 4, some (zeroStepExpr 5)⟩ :
      ConcurrentControl).cname.symbol = none ∧
    checkConcurrentHeader c10header = [] :=
  ⟨rfl, c10_unresolved_index_names c10header (by decide)⟩

end F18
